import Mathlib

/-!
# redis_lock: a shallow embedding of the lock handle and its operations

Sources embedded: `lock.go` (handle, `Lock`, `tryLock`, `blockingLock`,
`watchDog`, `runWatchDog`, `DelayExpire`, `Unlock`), `option.go`
(`LockOptions`, the three lock options, `repairLock`), `lua.go` (the two
scripts), `redis.go` (the `LockClient` interface and `Client.SetNXEX`),
`utils/os.go` (the ownership token).

Conventions.
* A Go `error` is `Option Err`; `none` is `nil`.
* `int64` values are `Int`; the only arithmetic on them (`expireSeconds+5`)
  goes through `add64`, which wraps modulo `2^64`.
* The store is reached only through `LockClient`, a pair of functions over an
  arbitrary state type; every call is appended to a trace of events.
* What the Go runtime decides (which `select` case fires at a tick, what
  other clients do to the store between two polls, when the previous
  watchdog goroutine clears `runningDog`) is an explicit schedule argument.
  A function that is still waiting when its schedule ends returns `none`.
-/

set_option maxRecDepth 8000

namespace redis_lock

/-! ## Errors -/

/-- An error value that is created outside `lock.go` and has nothing to do
with its sentinel: the errors that `redis.go` makes with `errors.New`, those
of the redigo driver and of the network, `context.Canceled`. -/
structure ExtErr where
  msg : String
deriving DecidableEq, Repr

/-- The error values that `lock.go` handles or builds. -/
inductive Err where
  /-- The package sentinel `ErrLockAcquireByOthers`. -/
  | ErrLockAcquireByOthers : Err
  /-- A value built by `errors.New` at another place of `lock.go`. -/
  | errorsNew (msg : String) : Err
  /-- A foreign error value, neither the sentinel nor a wrapper of it. -/
  | ext (e : ExtErr) : Err
  /-- A value built by `fmt.Errorf` with one `%w` verb: its text and the
  error it wraps. -/
  | Errorf (text : String) (wrapped : Err) : Err
deriving DecidableEq, Repr

/-- The method `Error()`. -/
def Err.Error : Err → String
  | .ErrLockAcquireByOthers => "lock is acquired by others"
  | .errorsNew m => m
  | .ext e => e.msg
  | .Errorf t _ => t

/-- The chain walk of `errors.Is(err, ErrLockAcquireByOthers)`. -/
def Err.isSentinel : Err → Bool
  | .ErrLockAcquireByOthers => true
  | .errorsNew _ => false
  | .ext _ => false
  | .Errorf _ w => w.isSentinel

/-- `IsRetryableErr` of `lock.go`. -/
def IsRetryableErr (err : Option Err) : Bool :=
  match err with
  | none => false
  | some e => e.isSentinel

/-! ## Machine integers -/

/-- Two's complement wrap of an integer into the `int64` range. -/
def wrap64 (x : Int) : Int := (x + 2 ^ 63) % 2 ^ 64 - 2 ^ 63

/-- Go's `+` on `int64`. -/
def add64 (a b : Int) : Int := wrap64 (a + b)

/-! ## Options (`option.go`) -/

def DefaultLockTTLSeconds : Int := 30

def WatchDogWorkIntervalSeconds : Int := 10

structure LockOptions where
  isBlock : Bool
  blockWaitingSeconds : Int
  expireSeconds : Int
  watchDogMode : Bool
deriving DecidableEq, Repr

/-- The closures returned by `WithBlockMode`, `WithBlockWaitingSeconds` and
`WithExpireSeconds`, named after their makers. -/
inductive LockOption where
  | WithBlockMode : LockOption
  | WithBlockWaitingSeconds (blockWaitingSeconds : Int) : LockOption
  | WithExpireSeconds (expireSeconds : Int) : LockOption
deriving DecidableEq, Repr

/-- Running an option closure on the options record. -/
def LockOption.apply (opt : LockOption) (c : LockOptions) : LockOptions :=
  match opt with
  | .WithBlockMode => { c with isBlock := true }
  | .WithBlockWaitingSeconds n => { c with blockWaitingSeconds := n }
  | .WithExpireSeconds n => { c with expireSeconds := n }

/-- `repairLock` of `option.go`. -/
def repairLock (c : LockOptions) : LockOptions :=
  let c1 : LockOptions :=
    if c.isBlock && decide (c.blockWaitingSeconds ≤ 0) then
      { c with blockWaitingSeconds := 5 }
    else c
  if c1.expireSeconds > 0 then c1
  else { c1 with expireSeconds := DefaultLockTTLSeconds, watchDogMode := true }

/-- The zero value of `LockOptions`. -/
def LockOptions.zero : LockOptions :=
  { isBlock := false, blockWaitingSeconds := 0, expireSeconds := 0, watchDogMode := false }

/-- The loop `for _, opt := range opts { opt(&r.LockOptions) }`. -/
def applyOpts (opts : List LockOption) (c : LockOptions) : LockOptions :=
  opts.foldl (fun acc opt => opt.apply acc) c

/-! ## The ownership token (`utils/os.go`) -/

/-- What the Go runtime tells the process about itself: `os.Getpid()` and
the text that `runtime.Stack(buf, false)` writes for the calling goroutine. -/
structure Runtime where
  pid : Nat
  stackInfo : String
deriving DecidableEq, Repr

/-- Worker of `splitChars`: `skip` counts the characters of a separator
occurrence still to be dropped, `cur` is the piece being read, reversed. -/
def splitGo (sep : List Char) : List Char → Nat → List Char → List (List Char)
  | [], _, cur => [cur.reverse]
  | _ :: rest, skip + 1, cur => splitGo sep rest skip cur
  | c :: rest, 0, cur =>
    if sep.isPrefixOf (c :: rest) then
      cur.reverse :: splitGo sep rest (sep.length - 1) []
    else splitGo sep rest 0 (c :: cur)

/-- `strings.Split(s, sep)` for a non-empty separator, on character lists. -/
def splitChars (s sep : List Char) : List (List Char) := splitGo sep s 0 []

/-- The white space that `strings.TrimSpace` removes (`unicode.IsSpace`). -/
def isSpace (c : Char) : Bool :=
  c = ' ' || c = '\t' || c = '\n' || c = '\r' || c.toNat = 11 || c.toNat = 12
    || c.toNat = 0x85 || c.toNat = 0xA0 || c.toNat = 0x1680
    || (0x2000 ≤ c.toNat && c.toNat ≤ 0x200A) || c.toNat = 0x2028 || c.toNat = 0x2029
    || c.toNat = 0x202F || c.toNat = 0x205F || c.toNat = 0x3000

/-- `strings.TrimSpace` on character lists. -/
def trimSpace (s : List Char) : List Char :=
  ((s.dropWhile isSpace).reverse.dropWhile isSpace).reverse

/-- `GetCurrentProcessID`: `strconv.Itoa(os.Getpid())`. -/
def GetCurrentProcessID (rt : Runtime) : String := Nat.repr rt.pid

/-- `GetCurrentGoroutineID`: the text between `goroutine` and `[running]`
in the stack header, trimmed. Indexing `[1]` panics in Go when the word
`goroutine` is missing; that is `none` here. -/
def GetCurrentGoroutineID (rt : Runtime) : Option String :=
  match splitChars rt.stackInfo.data "[running]".data with
  | [] => none
  | first :: _ =>
    match splitChars first "goroutine".data with
    | _ :: second :: _ => some (String.mk (trimSpace second))
    | _ => none

/-- `GetProcessAndGoroutineIDStr`. -/
def GetProcessAndGoroutineIDStr (rt : Runtime) : Option String :=
  (GetCurrentGoroutineID rt).map (fun g => GetCurrentProcessID rt ++ "_" ++ g)

/-! ## The handle (`lock.go`) -/

def RedisLockKeyPrefix : String := "REDIS_LOCK_PREFIX_"

/-- The handle `RedisLock`. `stopDog` holds the identity of the cancel
function made by `context.WithCancel`, `none` for a nil func. The field
`client` is passed to every operation as an argument instead. -/
structure RedisLock extends LockOptions where
  key : String
  token : String
  runningDog : Int
  stopDog : Option Nat
deriving DecidableEq, Repr

/-- `NewRedisLock`. It yields no handle when the token cannot be read off
the stack header. -/
def NewRedisLock (key : String) (rt : Runtime) (opts : List LockOption) : Option RedisLock :=
  (GetProcessAndGoroutineIDStr rt).map (fun tok =>
    { toLockOptions := repairLock (applyOpts opts LockOptions.zero)
      key := key
      token := tok
      runningDog := 0
      stopDog := none })

/-- `getLockKey`. -/
def RedisLock.getLockKey (r : RedisLock) : String := RedisLockKeyPrefix ++ r.key

/-! ## The store adapter (`redis.go`) and the effects of an operation -/

/-- A member of a `[]interface{}` argument slice: the handle only ever
passes strings and `int64` values. -/
inductive Arg where
  | str (s : String) : Arg
  | int64 (n : Int) : Arg
deriving DecidableEq, Repr

/-- The dynamic value of an `interface{}` reply. -/
inductive Reply where
  | nil : Reply
  | int64 (n : Int) : Reply
  | int (n : Int) : Reply
  | str (s : String) : Reply
  | bytes (b : String) : Reply
deriving DecidableEq, Repr

/-- The interface `LockClient` over a store state `σ`: each method gets the
current state and yields its Go result pair and the next state. The error of
the pair is any error value at all, the sentinel of `lock.go` included. -/
structure LockClient (σ : Type) where
  SetNXEX : σ → String → String → Int → (Int × Option Err) × σ
  Eval : σ → String → Int → List Arg → (Reply × Option Err) × σ

/-- What an operation of the handle does to the outside, in program order. -/
inductive Event where
  /-- A call `client.SetNXEX(ctx, key, value, expireSeconds)`. -/
  | SetNXEX (key value : String) (expireSeconds : Int) : Event
  /-- A call `client.Eval(ctx, src, keyCount, keysAndArgs)`. -/
  | Eval (src : String) (keyCount : Int) (keysAndArgs : List Arg) : Event
  /-- The `go func()` of `watchDog`, with the cancel function it runs under. -/
  | goWatchDog (cancelId : Nat) : Event
  /-- A call of the cancel function `stopDog`. -/
  | cancel (cancelId : Nat) : Event
deriving DecidableEq, Repr

/-- True for the two store calls. -/
def Event.isStoreCall : Event → Bool
  | .SetNXEX _ _ _ => true
  | .Eval _ _ _ => true
  | _ => false

/-- The store, the events so far, and the next unused cancel identity. -/
structure World (σ : Type) where
  store : σ
  trace : List Event
  nextCancel : Nat
deriving DecidableEq

def LuaCheckAndDeleteDistuributionLock : String :=
  "\n\tlocal lock_key = KEYS[1]\n\tlocal target_token = ARGV[1]\n\tlocal current_token = redis.call(\"GET\", lock_key)\n\tif current_token == target_token then\n\t\tredis.call(\"DEL\", lock_key)\n\t\treturn 1\n\tend\n\treturn 0\n"

def LuaCheckAndExpireDistributionLock : String :=
  "\n\tlocal lock_key = KEYS[1]\n\tlocal target_token = ARGV[1]\n\tlocal expire_time = ARGV[2]\n\tlocal current_token = redis.call(\"GET\", lock_key)\n\tif current_token == target_token then\n\t\tredis.call(\"EXPIRE\", lock_key, expire_time)\n\t\treturn 1\n\tend\n\treturn 0\n"

/-! ## Acquisition -/

/-- `fmt.Errorf("reply: %d, err: %w", reply, ErrLockAcquireByOthers)`. -/
def replyErr (reply : Int) : Err :=
  .Errorf ("reply: " ++ toString reply ++ ", err: " ++ Err.ErrLockAcquireByOthers.Error)
    .ErrLockAcquireByOthers

/-- `tryLock`. -/
def tryLock {σ : Type} (c : LockClient σ) (r : RedisLock) (w : World σ) :
    Option Err × World σ :=
  let res := c.SetNXEX w.store r.getLockKey r.token r.expireSeconds
  let w1 : World σ :=
    { w with store := res.2, trace := w.trace ++ [Event.SetNXEX r.getLockKey r.token r.expireSeconds] }
  match res.1.2 with
  | some e => (some e, w1)
  | none => if res.1.1 ≠ 1 then (some (replyErr res.1.1), w1) else (none, w1)

/-- Which case the `select` of `blockingLock` takes at a tick. -/
inductive Select where
  /-- The case `<-ctx.Done()`, with the value of `ctx.Err()`. -/
  | ctxDone (err : Err) : Select
  /-- The case `<-timeoutCh`: the wait of `blockWaitingSeconds` is over. -/
  | timeout : Select
  /-- The case `default`. -/
  | pass : Select
deriving DecidableEq, Repr

/-- One tick of the 50 ms ticker as the poll loop sees it: what other
clients and key expiry did to the store since the previous attempt, and the
case its `select` takes. -/
structure Tick (σ : Type) where
  others : σ → σ
  select : Select

/-- `fmt.Errorf("lock failed, ctx timeout, err: %w", ctx.Err())`. -/
def ctxErr (e : Err) : Err :=
  .Errorf ("lock failed, ctx timeout, err: " ++ e.Error) e

/-- `fmt.Errorf("block waiting time out, err: %w", ErrLockAcquireByOthers)`. -/
def timeoutErr : Err :=
  .Errorf ("block waiting time out, err: " ++ Err.ErrLockAcquireByOthers.Error)
    .ErrLockAcquireByOthers

/-- `blockingLock`, one list element per tick of the ticker. `none`: the
loop is still waiting for a tick after the last one listed. -/
def blockingLock {σ : Type} (c : LockClient σ) (r : RedisLock) :
    List (Tick σ) → World σ → Option (Option Err × World σ)
  | [], _ => none
  | t :: ts, w =>
    let w0 : World σ := { w with store := t.others w.store }
    match t.select with
    | .ctxDone e => some (some (ctxErr e), w0)
    | .timeout => some (some timeoutErr, w0)
    | .pass =>
      let res := tryLock c r w0
      match res.1 with
      | none => some (none, res.2)
      | some e =>
        if !IsRetryableErr (some e) then some (some e, res.2)
        else blockingLock c r ts res.2

/-- The loop `for !atomic.CompareAndSwapInt32(&r.runningDog, 0, 1) {}` seen
from the flag: one list element per failed or successful attempt, `true`
when the goroutine of the previous watchdog has run its deferred
`atomic.StoreInt32(&r.runningDog, 0)` since the attempt before; after the
list nothing else writes the flag. The result is whether the loop is left. -/
def spinCAS : Int → List Bool → Bool
  | flag, [] => flag == 0
  | flag, exited :: rest =>
    let cur := if exited then 0 else flag
    if cur == 0 then true else spinCAS cur rest

/-- `watchDog`. `none`: the compare-and-swap loop is never left. -/
def watchDog {σ : Type} (r : RedisLock) (gate : List Bool) (w : World σ) :
    Option (RedisLock × World σ) :=
  if !r.watchDogMode then some (r, w)
  else if spinCAS r.runningDog gate then
    some ({ r with runningDog := 1, stopDog := some w.nextCancel },
      { w with trace := w.trace ++ [Event.goWatchDog w.nextCancel],
               nextCancel := w.nextCancel + 1 })
  else none

/-- What the runtime decides during one call of `Lock`. -/
structure Sched (σ : Type) where
  ticks : List (Tick σ)
  gate : List Bool

/-- The deferred function of `Lock`: on a nil `err` it runs `watchDog`. -/
def lockDefer {σ : Type} (r : RedisLock) (gate : List Bool) (err : Option Err) (w : World σ) :
    Option (Option Err × RedisLock × World σ) :=
  match err with
  | some e => some (some e, r, w)
  | none => (watchDog r gate w).map (fun p => (none, p.1, p.2))

/-- `Lock`. `none`: the call has not returned when the schedule ends. -/
def Lock {σ : Type} (c : LockClient σ) (r : RedisLock) (env : Sched σ) (w : World σ) :
    Option (Option Err × RedisLock × World σ) :=
  let first := tryLock c r w
  match first.1 with
  | none => lockDefer r env.gate none first.2
  | some e =>
    if !r.isBlock then lockDefer r env.gate (some e) first.2
    else if !IsRetryableErr (some e) then lockDefer r env.gate (some e) first.2
    else
      match blockingLock c r env.ticks first.2 with
      | none => none
      | some res => lockDefer r env.gate res.1 res.2

/-! ## Renewal and release -/

/-- The error of `DelayExpire` for a reply other than the `int64` 1. -/
def expireErr : Err := .errorsNew "can not expire lock without ownership of lock"

/-- The error of `Unlock` for a reply other than the `int64` 1. -/
def unlockErr : Err := .errorsNew "can not unlock lock without ownership of lock"

/-- The reply checks that `DelayExpire` and `Unlock` both make, as one
function of the result pair and of the error for a lost ownership: the
store's error first, then a nil reply, then `ret, _ := reply.(int64)` with
`ret != 1`. -/
def checkReply (lost : Err) (res : Reply × Option Err) : Option Err :=
  match res.2 with
  | some e => some e
  | none =>
    match res.1 with
    | .nil => some lost
    | .int64 ret => if ret ≠ 1 then some lost else none
    | _ => some lost

/-- `DelayExpire`. -/
def DelayExpire {σ : Type} (c : LockClient σ) (r : RedisLock) (expireSeconds : Int)
    (w : World σ) : Option Err × World σ :=
  let keysAndArgs := [Arg.str r.getLockKey, Arg.str r.token, Arg.int64 expireSeconds]
  let res := c.Eval w.store LuaCheckAndExpireDistributionLock 1 keysAndArgs
  let w1 : World σ :=
    { w with store := res.2,
             trace := w.trace ++ [Event.Eval LuaCheckAndExpireDistributionLock 1 keysAndArgs] }
  let err : Option Err :=
    match res.1.2 with
    | some e => some e
    | none =>
      match res.1.1 with
      | .nil => some expireErr
      | .int64 ret => if ret ≠ 1 then some expireErr else none
      | _ => some expireErr
  (err, w1)

/-- `runWatchDog`, one list element per tick of the 10 s ticker: `true` when
`ctx.Done()` is ready at that tick. The result says whether the loop has
returned. -/
def runWatchDog {σ : Type} (c : LockClient σ) (r : RedisLock) :
    List Bool → World σ → Bool × World σ
  | [], w => (false, w)
  | true :: _, w => (true, w)
  | false :: ts, w => runWatchDog c r ts (DelayExpire c r (add64 r.expireSeconds 5) w).2

/-- `Unlock`: the body, then the deferred call of `stopDog` when it is set. -/
def Unlock {σ : Type} (c : LockClient σ) (r : RedisLock) (w : World σ) :
    Option Err × World σ :=
  let keysAndArgs := [Arg.str r.getLockKey, Arg.str r.token]
  let res := c.Eval w.store LuaCheckAndDeleteDistuributionLock 1 keysAndArgs
  let w1 : World σ :=
    { w with store := res.2,
             trace := w.trace ++ [Event.Eval LuaCheckAndDeleteDistuributionLock 1 keysAndArgs] }
  let err : Option Err :=
    match res.1.2 with
    | some e => some e
    | none =>
      match res.1.1 with
      | .nil => some unlockErr
      | .int64 ret => if ret ≠ 1 then some unlockErr else none
      | _ => some unlockErr
  match r.stopDog with
  | some id => (err, { w1 with trace := w1.trace ++ [Event.cancel id] })
  | none => (err, w1)

/-! ## A store held in memory

The Redis server is not part of the repository. `memClient` is the adapter
`Client` of `redis.go` talking to a single-node key-value map: `SET key
value EX seconds NX` creates the key only when it is absent, and the two
scripts of `lua.go` are run as written, as one indivisible step. -/

/-- A stored value and its time to live in seconds. -/
structure Entry where
  value : String
  ttl : Int
deriving DecidableEq, Repr

/-- The keys of the store with their entries, at most one entry per key. -/
abbrev MemStore : Type := List (String × Entry)

/-- The command `GET`: the value under a key, if any. -/
def MemStore.get (s : MemStore) (k : String) : Option String :=
  (s.lookup k).map Entry.value

/-- The command `DEL`. -/
def MemStore.del (s : MemStore) (k : String) : MemStore :=
  s.filter (fun p => p.1 ≠ k)

/-- Writing a key with a value and a time to live. -/
def MemStore.set (s : MemStore) (k : String) (e : Entry) : MemStore :=
  (k, e) :: s.del k

/-- The command `EXPIRE`: a new time to live for a present key; a time that
is not positive deletes the key. -/
def MemStore.expire (s : MemStore) (k : String) (ttl : Int) : MemStore :=
  match s.lookup k with
  | none => s
  | some e => if ttl ≤ 0 then s.del k else s.set k { e with ttl := ttl }

/-- `Client.SetNXEX` of `redis.go` on the map: the guard on empty arguments,
then `SET key value EX expireSeconds NX`, whose nil reply (key present)
becomes 0 and whose `OK` becomes 1. -/
def memSetNXEX (s : MemStore) (key value : String) (expireSeconds : Int) :
    (Int × Option Err) × MemStore :=
  if key = "" ∨ value = "" then
    ((-1, some (.ext ⟨"redis SETNXEX key or value can't be empty"⟩)), s)
  else if expireSeconds ≤ 0 then
    ((-1, some (.ext ⟨"ERR invalid expire time in 'set' command"⟩)), s)
  else
    match s.get key with
    | some _ => ((0, none), s)
    | none => ((1, none), s.set key ⟨value, expireSeconds⟩)

/-- The script `LuaCheckAndDeleteDistuributionLock` on the map. -/
def luaCheckAndDelete (s : MemStore) (lock_key target_token : String) : Reply × MemStore :=
  let current_token := s.get lock_key
  if current_token = some target_token then (.int64 1, s.del lock_key)
  else (.int64 0, s)

/-- The script `LuaCheckAndExpireDistributionLock` on the map. -/
def luaCheckAndExpire (s : MemStore) (lock_key target_token : String) (expire_time : Int) :
    Reply × MemStore :=
  let current_token := s.get lock_key
  if current_token = some target_token then (.int64 1, s.expire lock_key expire_time)
  else (.int64 0, s)

/-- `Client.Eval` of `redis.go` on the map, for the two scripts of `lua.go`
with the argument shapes the handle sends; any other request is answered
with a script error. -/
def memEval (s : MemStore) (src : String) (keyCount : Int) (keysAndArgs : List Arg) :
    (Reply × Option Err) × MemStore :=
  if keyCount = 1 ∧ src = LuaCheckAndDeleteDistuributionLock then
    match keysAndArgs with
    | [.str k, .str t] =>
      let res := luaCheckAndDelete s k t
      ((res.1, none), res.2)
    | _ => ((.nil, some (.ext ⟨"ERR Error running script"⟩)), s)
  else if keyCount = 1 ∧ src = LuaCheckAndExpireDistributionLock then
    match keysAndArgs with
    | [.str k, .str t, .int64 ttl] =>
      let res := luaCheckAndExpire s k t ttl
      ((res.1, none), res.2)
    | _ => ((.nil, some (.ext ⟨"ERR Error running script"⟩)), s)
  else ((.nil, some (.ext ⟨"ERR Error compiling script"⟩)), s)

/-- The in-memory store as a `LockClient`. -/
def memClient : LockClient MemStore where
  SetNXEX := memSetNXEX
  Eval := memEval

/-- The runtime of the examples: process 4242, goroutine 18. -/
def rtMain : Runtime := ⟨4242, "goroutine 18 [running]:\nmain.main()\n\t/app/main.go:12 +0x1d\n"⟩

/-- A second goroutine of the same process. -/
def rtWorker : Runtime := ⟨4242, "goroutine 19 [running]:\nmain.worker()\n\t/app/main.go:30 +0x2a\n"⟩

/-- The empty world over the in-memory store. -/
def memWorld0 : World MemStore := ⟨[], [], 0⟩

/-- A schedule with no tick and no write to the flag. -/
def noSched (σ : Type) : Sched σ := ⟨[], []⟩

/-- The lease the option list asks for: the value of the last
`WithExpireSeconds` in it, if there is one. -/
def requestedExpire : List LockOption → Option Int
  | [] => none
  | opt :: rest =>
    match requestedExpire rest with
    | some n => some n
    | none =>
      match opt with
      | .WithExpireSeconds n => some n
      | _ => none

/-- Reading a decimal numeral back, most significant digit first. -/
def decodeDigits (cs : List Char) : Nat := cs.foldl (fun a c => a * 10 + (c.toNat - 48)) 0

/-- The handle `NewRedisLock("job", client, WithExpireSeconds(0))` built by
goroutine 18 of process 4242. -/
def lockZeroLease : RedisLock :=
  { isBlock := false, blockWaitingSeconds := 0, expireSeconds := 30, watchDogMode := true,
    key := "job", token := "4242_18", runningDog := 0, stopDog := none }

/-- The handle `lock1` of `Test_nonBlockingLock`, built by goroutine 18 of
process 4242. The handle `lock2` of that test is built by the same call. -/
def lock1 : RedisLock :=
  { isBlock := false, blockWaitingSeconds := 0, expireSeconds := 2, watchDogMode := false,
    key := "test_nonblock_key", token := "4242_18", runningDog := 0, stopDog := none }

/-- A handle on the key of `lock1` built by goroutine 19 of the same process. -/
def lockWorker : RedisLock :=
  { isBlock := false, blockWaitingSeconds := 0, expireSeconds := 2, watchDogMode := false,
    key := "test_nonblock_key", token := "4242_19", runningDog := 0, stopDog := none }

/-- The in-memory world after `lock1.Lock` on the empty store. -/
def worldHeldByLock1 : World MemStore :=
  { store := [("REDIS_LOCK_PREFIX_test_nonblock_key", ⟨"4242_18", 2⟩)],
    trace := [Event.SetNXEX "REDIS_LOCK_PREFIX_test_nonblock_key" "4242_18" 2],
    nextCancel := 0 }

/-- A blocking handle on the key of `lock1`, built by goroutine 19:
`NewRedisLock("test_nonblock_key", client, WithBlockMode(),
WithBlockWaitingSeconds(2), WithExpireSeconds(2))`. -/
def lockBlocking : RedisLock :=
  { isBlock := true, blockWaitingSeconds := 2, expireSeconds := 2, watchDogMode := false,
    key := "test_nonblock_key", token := "4242_19", runningDog := 0, stopDog := none }

/-- A schedule whose first tick finds the wait of `blockWaitingSeconds` over. -/
def schedTimeout : Sched MemStore := ⟨[⟨id, Select.timeout⟩], []⟩

/-- The handle `NewRedisLock("job", client)` after a successful `Lock`: its
watchdog runs under the cancel function 0. -/
def lockWithDog : RedisLock :=
  { isBlock := false, blockWaitingSeconds := 0, expireSeconds := 30, watchDogMode := true,
    key := "job", token := "4242_18", runningDog := 1, stopDog := some 0 }

/-- The in-memory world in which `lockWithDog` holds its key. -/
def worldHeldWithDog : World MemStore :=
  { store := [("REDIS_LOCK_PREFIX_job", ⟨"4242_18", 30⟩)],
    trace := [],
    nextCancel := 1 }

/-- The call that `DelayExpire` makes on the client. -/
def expireCall (r : RedisLock) (expireSeconds : Int) : Event :=
  Event.Eval LuaCheckAndExpireDistributionLock 1
    [Arg.str (RedisLockKeyPrefix ++ r.key), Arg.str r.token, Arg.int64 expireSeconds]

/-- The call that `Unlock` makes on the client. -/
def deleteCall (r : RedisLock) : Event :=
  Event.Eval LuaCheckAndDeleteDistuributionLock 1
    [Arg.str (RedisLockKeyPrefix ++ r.key), Arg.str r.token]

/-- The in-memory world in which the key of `lock1` is held by the handle
`lockWorker` of another goroutine. -/
def worldHeldByWorker : World MemStore :=
  { store := [("REDIS_LOCK_PREFIX_test_nonblock_key", ⟨"4242_19", 2⟩)],
    trace := [],
    nextCancel := 0 }

/-- A client whose store is taken: every call fails, and the error it
hands over is `ErrLockAcquireByOthers` itself. -/
def busyClient : LockClient Unit where
  SetNXEX := fun s _ _ _ => ((0, some Err.ErrLockAcquireByOthers), s)
  Eval := fun s _ _ _ => ((Reply.nil, some Err.ErrLockAcquireByOthers), s)

/-- The text that `runtime.Stack` writes for a goroutine in the plain
running state: the header `goroutine N [running]:` and after it the frames. -/
def runningStack (goid : Nat) (frames : String) : String :=
  "goroutine " ++ Nat.repr goid ++ " [running]:" ++ frames

/-- The text that `runtime.Stack` writes for a running goroutine that is
locked to its thread, as the main goroutine is during `init`. -/
def lockedStack (goid : Nat) (frames : String) : String :=
  "goroutine " ++ Nat.repr goid ++ " [running, locked to thread]:" ++ frames

/-! # Properties -/

/-! ## Decimal numerals and the token format -/

theorem digitChar_toNat (d : Nat) (h : d < 10) : (Nat.digitChar d).toNat - 48 = d := by
  interval_cases d <;> rfl

theorem digitChar_ne_underscore (d : Nat) (h : d < 10) : Nat.digitChar d ≠ '_' := by
  interval_cases d <;> decide

theorem toDigitsCore_append (fuel : Nat) : ∀ (n : Nat) (ds : List Char),
    Nat.toDigitsCore 10 fuel n ds = Nat.toDigitsCore 10 fuel n [] ++ ds := by
  induction fuel with
  | zero => intro n ds; simp [Nat.toDigitsCore]
  | succ f ih =>
    intro n ds
    simp only [Nat.toDigitsCore]
    split
    · simp
    · rw [ih (n / 10) (_ :: ds), ih (n / 10) [_]]; simp

theorem decodeDigits_append (cs : List Char) (c : Char) :
    decodeDigits (cs ++ [c]) = decodeDigits cs * 10 + (c.toNat - 48) := by
  simp [decodeDigits, List.foldl_append]

theorem decode_toDigitsCore (fuel : Nat) : ∀ n, n < fuel →
    decodeDigits (Nat.toDigitsCore 10 fuel n []) = n := by
  induction fuel with
  | zero => intro n h; omega
  | succ f ih =>
    intro n h
    simp only [Nat.toDigitsCore]
    split
    · have hm : n % 10 = n := by omega
      have hn : n < 10 := by omega
      rw [hm]
      simp [decodeDigits, digitChar_toNat n hn]
    · rw [toDigitsCore_append, decodeDigits_append, ih (n / 10) (by omega),
        digitChar_toNat (n % 10) (Nat.mod_lt _ (by decide))]
      omega

theorem toDigitsCore_no_underscore (fuel : Nat) :
    ∀ n, '_' ∉ Nat.toDigitsCore 10 fuel n [] := by
  induction fuel with
  | zero => intro n; simp [Nat.toDigitsCore]
  | succ f ih =>
    intro n
    simp only [Nat.toDigitsCore]
    split
    · simpa using (digitChar_ne_underscore (n % 10) (Nat.mod_lt _ (by decide))).symm
    · rw [toDigitsCore_append]
      simp only [List.mem_append, List.mem_singleton, not_or]
      exact ⟨ih _, (digitChar_ne_underscore (n % 10) (Nat.mod_lt _ (by decide))).symm⟩

theorem repr_data (n : Nat) : (Nat.repr n).data = Nat.toDigits 10 n := by
  simp [Nat.repr, List.asString]

theorem repr_inj {a b : Nat} (h : Nat.repr a = Nat.repr b) : a = b := by
  have h1 : (Nat.repr a).data = (Nat.repr b).data := by rw [h]
  rw [repr_data, repr_data] at h1
  have ha := decode_toDigitsCore (a + 1) a (by omega)
  have hb := decode_toDigitsCore (b + 1) b (by omega)
  unfold Nat.toDigits at h1
  rw [h1] at ha
  omega

theorem split_at_sep (c : Char) : ∀ (l1 l2 s1 s2 : List Char), c ∉ l1 → c ∉ l2 →
    l1 ++ c :: s1 = l2 ++ c :: s2 → l1 = l2 ∧ s1 = s2 := by
  intro l1
  induction l1 with
  | nil =>
    intro l2 s1 s2 _ h2 h
    cases l2 with
    | nil => simpa using h
    | cons x xs =>
      simp only [List.nil_append, List.cons_append, List.cons.injEq] at h
      exact absurd (by rw [← h.1]; simp) h2
  | cons y ys ih =>
    intro l2 s1 s2 h1 h2 h
    cases l2 with
    | nil =>
      simp only [List.nil_append, List.cons_append, List.cons.injEq] at h
      exact absurd (by rw [h.1]; simp) h1
    | cons x xs =>
      simp only [List.cons_append, List.cons.injEq] at h
      have hr := ih xs s1 s2 (fun hm => h1 (List.mem_cons_of_mem _ hm))
        (fun hm => h2 (List.mem_cons_of_mem _ hm)) h.2
      exact ⟨by rw [h.1, hr.1], hr.2⟩

/-- The text `pid_goroutine` determines both of its parts. -/
theorem token_inj (p1 p2 : Nat) (g1 g2 : String)
    (h : Nat.repr p1 ++ "_" ++ g1 = Nat.repr p2 ++ "_" ++ g2) : p1 = p2 ∧ g1 = g2 := by
  have hd : (Nat.repr p1 ++ "_" ++ g1).data = (Nat.repr p2 ++ "_" ++ g2).data := by rw [h]
  simp only [String.data_append, repr_data, List.append_assoc] at hd
  simp only [List.singleton_append] at hd
  have hs := split_at_sep '_' _ _ _ _ (toDigitsCore_no_underscore _ p1)
    (toDigitsCore_no_underscore _ p2) hd
  refine ⟨repr_inj ?_, String.ext hs.2⟩
  apply String.ext
  rw [repr_data, repr_data]; exact hs.1

/-! ## Reading the goroutine id off the stack header -/

theorem toDigitsCore_mem (fuel : Nat) : ∀ (n : Nat) (c : Char),
    c ∈ Nat.toDigitsCore 10 fuel n [] → ∃ d, d < 10 ∧ c = Nat.digitChar d := by
  induction fuel with
  | zero => intro n c h; simp [Nat.toDigitsCore] at h
  | succ f ih =>
    intro n c h
    simp only [Nat.toDigitsCore] at h
    split at h
    · simp only [List.mem_singleton] at h
      exact ⟨n % 10, Nat.mod_lt _ (by decide), h⟩
    · rw [toDigitsCore_append] at h
      simp only [List.mem_append, List.mem_singleton] at h
      rcases h with h | h
      · exact ih _ _ h
      · exact ⟨n % 10, Nat.mod_lt _ (by decide), h⟩

theorem digitChar_plain (d : Nat) (h : d < 10) :
    Nat.digitChar d ≠ '[' ∧ Nat.digitChar d ≠ 'g' ∧ isSpace (Nat.digitChar d) = false := by
  interval_cases d <;> decide

theorem splitGo_cons_zero (sep : List Char) (c : Char) (rest cur : List Char) :
    splitGo sep (c :: rest) 0 cur
      = if sep.isPrefixOf (c :: rest) then cur.reverse :: splitGo sep rest (sep.length - 1) []
        else splitGo sep rest 0 (c :: cur) := by
  rw [splitGo]

theorem splitGo_cons_succ (sep : List Char) (c : Char) (rest cur : List Char) (k : Nat) :
    splitGo sep (c :: rest) (k + 1) cur = splitGo sep rest k cur := by
  rw [splitGo]

theorem splitGo_skip (sep : List Char) : ∀ (xs l cur : List Char),
    splitGo sep (xs ++ l) xs.length cur = splitGo sep l 0 cur := by
  intro xs
  induction xs with
  | nil => intro l cur; rfl
  | cons x xs ih =>
    intro l cur
    rw [List.cons_append, List.length_cons, splitGo_cons_succ]
    exact ih l cur

theorem isPrefixOf_cons_ne (s0 c : Char) (tl rest : List Char) (h : c ≠ s0) :
    (s0 :: tl).isPrefixOf (c :: rest) = false := by
  simp [List.isPrefixOf, h.symm]

theorem splitGo_no_first (s0 : Char) (tl : List Char) : ∀ (pre l cur : List Char),
    s0 ∉ pre → splitGo (s0 :: tl) (pre ++ l) 0 cur
      = splitGo (s0 :: tl) l 0 (pre.reverse ++ cur) := by
  intro pre
  induction pre with
  | nil => intro l cur _; rfl
  | cons c pre ih =>
    intro l cur h
    have hc : c ≠ s0 := fun e => h (by rw [e]; exact List.mem_cons_self _ _)
    have hp : s0 ∉ pre := fun m => h (List.mem_cons_of_mem _ m)
    rw [List.cons_append, splitGo_cons_zero, isPrefixOf_cons_ne s0 c tl _ hc]
    simp only [Bool.false_eq_true, if_false]
    rw [ih l (c :: cur) hp]
    simp

theorem isPrefixOf_self_append (sep l : List Char) : sep.isPrefixOf (sep ++ l) = true := by
  induction sep with
  | nil => simp [List.isPrefixOf]
  | cons a as ih => simp [List.isPrefixOf, ih]

theorem splitGo_at_sep (s0 : Char) (tl l cur : List Char) :
    splitGo (s0 :: tl) ((s0 :: tl) ++ l) 0 cur
      = cur.reverse :: splitGo (s0 :: tl) l 0 [] := by
  have hp := isPrefixOf_self_append (s0 :: tl) l
  rw [List.cons_append] at hp ⊢
  rw [splitGo_cons_zero, hp, if_pos rfl, List.length_cons, Nat.add_sub_cancel, splitGo_skip]

theorem dropWhile_head_false (p : Char → Bool) (c : Char) (l : List Char) (h : p c = false) :
    (c :: l).dropWhile p = c :: l := by
  simp [List.dropWhile, h]

theorem trimSpace_pad (d : List Char) (hd : ∀ c ∈ d, isSpace c = false) :
    trimSpace (' ' :: d ++ [' ']) = d := by
  have hsp : isSpace ' ' = true := by decide
  cases d with
  | nil => decide
  | cons x xs =>
    have hx : isSpace x = false := hd x (List.mem_cons_self _ _)
    unfold trimSpace
    have h1 : (' ' :: (x :: xs) ++ [' ']).dropWhile isSpace = x :: xs ++ [' '] := by
      simp [List.dropWhile, hsp, hx]
    rw [h1]
    have h2 : (x :: xs ++ [' ']).reverse = ' ' :: (x :: xs).reverse := by simp
    rw [h2]
    have h3 : (' ' :: (x :: xs).reverse).dropWhile isSpace = (x :: xs).reverse := by
      rw [List.dropWhile_cons, if_pos hsp]
      cases hr : (x :: xs).reverse with
      | nil => rfl
      | cons y ys =>
        have hy : y ∈ x :: xs := by
          have : y ∈ (x :: xs).reverse := by rw [hr]; exact List.mem_cons_self _ _
          exact List.mem_reverse.1 this
        exact dropWhile_head_false _ _ _ (hd y hy)
    rw [h3, List.reverse_reverse]

theorem splitChars_running (D frames : List Char) (hD : ∀ c ∈ D, c ≠ '[') :
    splitChars ("goroutine".data ++ (' ' :: D ++ [' ']) ++ ("[running]".data ++ frames))
        "[running]".data
      = ("goroutine".data ++ (' ' :: D ++ [' ']))
          :: splitGo "[running]".data frames 0 [] := by
  have hs : "[running]".data = '[' :: "running]".data := rfl
  have hpre : '[' ∉ "goroutine".data ++ (' ' :: D ++ [' ']) := by
    intro hm
    rcases List.mem_append.1 hm with h1 | h2
    · exact absurd h1 (by decide)
    · rcases List.mem_cons.1 h2 with h | h
      · exact absurd h (by decide)
      · rcases List.mem_append.1 h with h | h
        · exact hD _ h rfl
        · exact absurd (List.mem_singleton.1 h) (by decide)
  unfold splitChars
  rw [hs, splitGo_no_first '[' _ _ _ _ hpre, splitGo_at_sep]
  simp

theorem splitChars_goroutine (D : List Char) (hD : ∀ c ∈ D, c ≠ 'g') :
    splitChars ("goroutine".data ++ (' ' :: D ++ [' '])) "goroutine".data
      = [[], ' ' :: D ++ [' ']] := by
  have hs : "goroutine".data = 'g' :: "oroutine".data := rfl
  have hmid : 'g' ∉ (' ' :: D ++ [' ']) := by
    intro hm
    rcases List.mem_cons.1 hm with h | h
    · exact absurd h (by decide)
    · rcases List.mem_append.1 h with h | h
      · exact hD _ h rfl
      · exact absurd (List.mem_singleton.1 h) (by decide)
  unfold splitChars
  rw [hs, splitGo_at_sep]
  have h2 := splitGo_no_first 'g' "oroutine".data (' ' :: D ++ [' ']) [] [] hmid
  rw [List.append_nil] at h2
  rw [h2]
  simp [splitGo]

/-- On the header `goroutine N [running]:` the parse of `utils/os.go` yields
the decimal numeral of `N`, whatever the frames are. -/
theorem GetCurrentGoroutineID_running (pid goid : Nat) (frames : String) :
    GetCurrentGoroutineID ⟨pid, runningStack goid frames⟩ = some (Nat.repr goid) := by
  have hdig : ∀ c ∈ Nat.toDigits 10 goid,
      c ≠ '[' ∧ c ≠ 'g' ∧ isSpace c = false := by
    intro c hc
    obtain ⟨d, hd, hcd⟩ := toDigitsCore_mem _ _ _ hc
    rw [hcd]
    exact digitChar_plain d hd
  have hdata : (runningStack goid frames).data
      = "goroutine".data ++ (' ' :: Nat.toDigits 10 goid ++ [' '])
          ++ ("[running]".data ++ (':' :: frames.data)) := by
    have h1 : ("goroutine " : String).data = "goroutine".data ++ [' '] := rfl
    have h2 : (" [running]:" : String).data = ' ' :: ("[running]".data ++ [':']) := rfl
    simp only [runningStack, String.data_append, repr_data, h1, h2]
    simp
  unfold GetCurrentGoroutineID
  simp only [hdata]
  rw [splitChars_running _ _ (fun c hc => (hdig c hc).1)]
  simp only
  rw [splitChars_goroutine _ (fun c hc => (hdig c hc).2.1)]
  simp only
  rw [trimSpace_pad _ (fun c hc => (hdig c hc).2.2)]
  rfl

/-- A token made of a process id and a goroutine id is never empty. -/
theorem token_ne_empty (p : Nat) (g : String) : Nat.repr p ++ "_" ++ g ≠ "" := by
  intro h
  have hl : (Nat.repr p ++ "_" ++ g).length = ("" : String).length := by rw [h]
  simp only [String.length_append] at hl
  have h1 : ("_" : String).length = 1 := rfl
  have h0 : ("" : String).length = 0 := rfl
  omega

/-- What `NewRedisLock` puts into a handle. -/
theorem NewRedisLock_some {key : String} {rt : Runtime} {opts : List LockOption}
    {h : RedisLock} (hn : NewRedisLock key rt opts = some h) :
    ∃ g, GetCurrentGoroutineID rt = some g ∧ h.token = Nat.repr rt.pid ++ "_" ++ g
      ∧ h.key = key ∧ h.toLockOptions = repairLock (applyOpts opts LockOptions.zero)
      ∧ h.runningDog = 0 ∧ h.stopDog = none := by
  unfold NewRedisLock GetProcessAndGoroutineIDStr at hn
  cases hg : GetCurrentGoroutineID rt with
  | none => simp [hg] at hn
  | some g =>
    simp only [hg, Option.map_some', Option.some.injEq] at hn
    subst hn
    exact ⟨g, rfl, rfl, rfl, rfl, rfl, rfl⟩

/-! ## Options -/

theorem applyOpts_expire : ∀ (opts : List LockOption) (c : LockOptions),
    (applyOpts opts c).expireSeconds = (requestedExpire opts).getD c.expireSeconds
      ∧ (applyOpts opts c).watchDogMode = c.watchDogMode := by
  intro opts
  induction opts with
  | nil => intro c; simp [applyOpts, requestedExpire]
  | cons o rest ih =>
    intro c
    have hr := ih (o.apply c)
    simp only [applyOpts, List.foldl_cons] at hr ⊢
    rw [hr.1, hr.2]
    cases hq : requestedExpire rest with
    | some n => simp [requestedExpire, hq]; cases o <;> rfl
    | none => cases o <;> simp [requestedExpire, hq, LockOption.apply]

theorem requestedExpire_none : ∀ (opts : List LockOption),
    (∀ n, LockOption.WithExpireSeconds n ∉ opts) → requestedExpire opts = none := by
  intro opts
  induction opts with
  | nil => intro _; rfl
  | cons o rest ih =>
    intro h
    have hr := ih (fun n hm => h n (List.mem_cons_of_mem _ hm))
    cases o with
    | WithExpireSeconds n => exact absurd (List.mem_cons_self _ _) (h n)
    | WithBlockMode => simp [requestedExpire, hr]
    | WithBlockWaitingSeconds m => simp [requestedExpire, hr]

theorem repairLock_lease (c : LockOptions) :
    (0 < c.expireSeconds → (repairLock c).expireSeconds = c.expireSeconds
        ∧ (repairLock c).watchDogMode = c.watchDogMode)
    ∧ (c.expireSeconds ≤ 0 → (repairLock c).expireSeconds = 30
        ∧ (repairLock c).watchDogMode = true) := by
  constructor
  · intro h
    unfold repairLock
    by_cases hb : (c.isBlock && decide (c.blockWaitingSeconds ≤ 0)) = true
    · simp [hb, h]
    · simp only [hb]; simp [h]
  · intro h
    have h' : ¬ c.expireSeconds > 0 := by omega
    unfold repairLock
    by_cases hb : (c.isBlock && decide (c.blockWaitingSeconds ≤ 0)) = true
    · simp [hb, h', DefaultLockTTLSeconds]
    · simp only [hb]; simp [h', DefaultLockTTLSeconds]

/-! ## C5: when the watchdog is enabled -/

/-- C5, as stated, fails: the option list holds `WithExpireSeconds(0)`, an
explicitly set lease, and yet the handle comes out with `watchDogMode = true`
and `expireSeconds = 30` instead of the caller's 0. -/
theorem C5_counterexample_explicit_zero_lease :
    LockOption.WithExpireSeconds 0 ∈ [LockOption.WithExpireSeconds 0]
    ∧ NewRedisLock "job" rtMain [LockOption.WithExpireSeconds 0] = some lockZeroLease
    ∧ lockZeroLease.watchDogMode = true
    ∧ lockZeroLease.expireSeconds = 30 := by
  refine ⟨by simp, by decide, rfl, rfl⟩

/-- C5, amended: for every option list, `watchDogMode = true` exactly when
the lease the list asks for (the last `WithExpireSeconds`, 0 when there is
none) is not positive, and then `expireSeconds` is 30; when that lease is
positive, `expireSeconds` is that value and the watchdog is disabled. In
particular a list without `WithExpireSeconds` gives a watchdog and 30. -/
theorem C5_watchdog_iff_lease_not_positive (key : String) (rt : Runtime)
    (opts : List LockOption) (h : RedisLock) (hn : NewRedisLock key rt opts = some h) :
    (h.watchDogMode = true ↔ (requestedExpire opts).getD 0 ≤ 0)
    ∧ ((requestedExpire opts).getD 0 ≤ 0 → h.expireSeconds = 30)
    ∧ (0 < (requestedExpire opts).getD 0 →
        h.expireSeconds = (requestedExpire opts).getD 0 ∧ h.watchDogMode = false)
    ∧ ((∀ n, LockOption.WithExpireSeconds n ∉ opts) →
        h.watchDogMode = true ∧ h.expireSeconds = 30) := by
  obtain ⟨g, _, _, _, ho, _, _⟩ := NewRedisLock_some hn
  have ha := applyOpts_expire opts LockOptions.zero
  have hz : LockOptions.zero.expireSeconds = 0 := rfl
  have hzw : LockOptions.zero.watchDogMode = false := rfl
  rw [hz] at ha
  have hl := repairLock_lease (applyOpts opts LockOptions.zero)
  rw [ha.1, ha.2, hzw] at hl
  have he : h.expireSeconds = (repairLock (applyOpts opts LockOptions.zero)).expireSeconds := by
    rw [← ho]
  have hw : h.watchDogMode = (repairLock (applyOpts opts LockOptions.zero)).watchDogMode := by
    rw [← ho]
  rw [← he, ← hw] at hl
  have hpos : 0 < (requestedExpire opts).getD 0 →
      h.expireSeconds = (requestedExpire opts).getD 0 ∧ h.watchDogMode = false := hl.1
  have hnon : (requestedExpire opts).getD 0 ≤ 0 →
      h.expireSeconds = 30 ∧ h.watchDogMode = true := hl.2
  refine ⟨⟨fun hwd => ?_, fun hle => (hnon hle).2⟩, fun hle => (hnon hle).1, hpos, fun hno => ?_⟩
  · by_contra hc
    have hp := (hpos (by omega)).2
    rw [hwd] at hp
    exact Bool.noConfusion hp
  · have hq := requestedExpire_none opts hno
    have hle : (requestedExpire opts).getD 0 ≤ 0 := by rw [hq]; simp
    exact ⟨(hnon hle).2, (hnon hle).1⟩

/-- C5, amended, at `NewRedisLock("job", client, WithExpireSeconds(0))`. -/
theorem C5_watchdog_iff_lease_not_positive_witness :
    NewRedisLock "job" rtMain [LockOption.WithExpireSeconds 0] = some lockZeroLease
    ∧ (lockZeroLease.watchDogMode = true
        ↔ (requestedExpire [LockOption.WithExpireSeconds 0]).getD 0 ≤ 0) :=
  ⟨by decide,
    (C5_watchdog_iff_lease_not_positive "job" rtMain [LockOption.WithExpireSeconds 0]
      lockZeroLease (by decide)).1⟩

/-! ## C4: the ownership token -/

/-- C4, as stated, fails: `lock1` and `lock2` of `Test_nonBlockingLock` are
built one after the other by the same goroutine and carry the same token;
after `lock1.Lock` the `Unlock` of a handle with that token returns nil and
deletes the key that `lock1` stored. -/
theorem C4_counterexample_same_goroutine_same_token :
    ∃ lock2 : RedisLock,
      NewRedisLock "test_nonblock_key" rtMain [LockOption.WithExpireSeconds 2] = some lock1
      ∧ NewRedisLock "test_nonblock_key" rtMain [LockOption.WithExpireSeconds 2] = some lock2
      ∧ lock1.token = lock2.token
      ∧ (Lock memClient lock1 (noSched MemStore) memWorld0).map
          (fun r => (r.1, r.2.2.store)) = some (none, worldHeldByLock1.store)
      ∧ (Unlock memClient lock2 worldHeldByLock1).1 = none
      ∧ (Unlock memClient lock2 worldHeldByLock1).2.store = [] := by
  refine ⟨lock1, by decide, by decide, rfl, by decide, by decide, by decide⟩

/-- On the header of a goroutine locked to its thread the first split finds
no `[running]`, and the text read is the rest of the stack text, not a
number. -/
theorem GetCurrentGoroutineID_locked_example :
    GetCurrentGoroutineID ⟨4242, lockedStack 1 "\nmain.init()\n"⟩
      = some "1 [running, locked to thread]:\nmain.init()" := by
  decide

/-- C4, amended: the token is the process id, `_` and the text that
`GetCurrentGoroutineID` reads off the stack header of the constructing
goroutine, and nothing of the handle, its key or its options: two handles
have the same token exactly when they were built under the same process id
and that text is the same. For a goroutine whose header is
`goroutine N [running]:` the text is the decimal `N`, the token is `pid_N`,
and two handles built by such goroutines have the same token exactly when
process id and goroutine id are the same: handles of different goroutines
differ, handles of the same goroutine share the token. -/
theorem C4_token_eq_iff_same_process_and_goroutine (key1 key2 : String) (rt1 rt2 : Runtime)
    (opts1 opts2 : List LockOption) (h1 h2 : RedisLock)
    (pid1 pid2 goid1 goid2 : Nat) (frames1 frames2 : String)
    (hn1 : NewRedisLock key1 rt1 opts1 = some h1)
    (hn2 : NewRedisLock key2 rt2 opts2 = some h2) :
    (h1.token = h2.token ↔
      rt1.pid = rt2.pid ∧ GetCurrentGoroutineID rt1 = GetCurrentGoroutineID rt2)
    ∧ (NewRedisLock key1 ⟨pid1, runningStack goid1 frames1⟩ opts1).map (fun h => h.token)
        = some (Nat.repr pid1 ++ "_" ++ Nat.repr goid1)
    ∧ ((NewRedisLock key1 ⟨pid1, runningStack goid1 frames1⟩ opts1).map (fun h => h.token)
          = (NewRedisLock key2 ⟨pid2, runningStack goid2 frames2⟩ opts2).map
              (fun h => h.token)
        ↔ pid1 = pid2 ∧ goid1 = goid2) := by
  have htok : ∀ (key : String) (pid goid : Nat) (frames : String) (opts : List LockOption),
      (NewRedisLock key ⟨pid, runningStack goid frames⟩ opts).map (fun h => h.token)
        = some (Nat.repr pid ++ "_" ++ Nat.repr goid) := by
    intro key pid goid frames opts
    simp [NewRedisLock, GetProcessAndGoroutineIDStr, GetCurrentGoroutineID_running,
      GetCurrentProcessID]
  refine ⟨?_, htok _ _ _ _ _, ?_⟩
  · obtain ⟨g1, hg1, ht1, _⟩ := NewRedisLock_some hn1
    obtain ⟨g2, hg2, ht2, _⟩ := NewRedisLock_some hn2
    rw [ht1, ht2, hg1, hg2]
    constructor
    · intro h
      have hi := token_inj _ _ _ _ h
      exact ⟨hi.1, by rw [hi.2]⟩
    · rintro ⟨hp, hg⟩
      rw [hp, Option.some.inj hg]
  · rw [htok, htok]
    constructor
    · intro h
      have hi := token_inj _ _ _ _ (Option.some.inj h)
      exact ⟨hi.1, repr_inj hi.2⟩
    · rintro ⟨hp, hg⟩
      rw [hp, hg]

/-- C4, amended, at `lock1` and a handle built by another goroutine of the
same process: the stack texts are those of goroutines 18 and 19 in the plain
running state, and the tokens differ. -/
theorem C4_token_eq_iff_same_process_and_goroutine_witness :
    NewRedisLock "test_nonblock_key" rtMain [LockOption.WithExpireSeconds 2] = some lock1
    ∧ NewRedisLock "test_nonblock_key" rtWorker [LockOption.WithExpireSeconds 2]
        = some lockWorker
    ∧ rtMain = ⟨4242, runningStack 18 "\nmain.main()\n\t/app/main.go:12 +0x1d\n"⟩
    ∧ rtWorker = ⟨4242, runningStack 19 "\nmain.worker()\n\t/app/main.go:30 +0x2a\n"⟩
    ∧ lock1.token ≠ lockWorker.token := by
  have h := C4_token_eq_iff_same_process_and_goroutine "test_nonblock_key"
    "test_nonblock_key" rtMain rtWorker [LockOption.WithExpireSeconds 2]
    [LockOption.WithExpireSeconds 2] lock1 lockWorker 4242 4242 18 19
    "\nmain.main()\n\t/app/main.go:12 +0x1d\n" "\nmain.worker()\n\t/app/main.go:30 +0x2a\n"
    (by decide) (by decide)
  refine ⟨by decide, by decide, by decide, by decide, fun heq => ?_⟩
  have hpair := h.2.2.1 (by
    have e1 : NewRedisLock "test_nonblock_key"
        ⟨4242, runningStack 18 "\nmain.main()\n\t/app/main.go:12 +0x1d\n"⟩
        [LockOption.WithExpireSeconds 2] = some lock1 := by decide
    have e2 : NewRedisLock "test_nonblock_key"
        ⟨4242, runningStack 19 "\nmain.worker()\n\t/app/main.go:30 +0x2a\n"⟩
        [LockOption.WithExpireSeconds 2] = some lockWorker := by decide
    rw [e1, e2]
    simp only [Option.map_some', heq])
  exact absurd hpair.2 (by decide)

/-! ## C7: the error of an exhausted wait -/

/-- C7, as stated, fails: a blocking `Lock` on a held key whose poll loop
finds the wait over returns the error built from `ErrLockAcquireByOthers`,
and `IsRetryableErr` of that error is `true`, not `false`. -/
theorem C7_counterexample_timeout_is_retryable :
    (Lock memClient lockBlocking schedTimeout worldHeldByLock1).map (fun r => r.1)
      = some (some timeoutErr)
    ∧ IsRetryableErr (some timeoutErr) = true := by
  refine ⟨by decide, by decide⟩

/-- C7, amended: at a tick whose `select` finds the wait of
`blockWaitingSeconds` over, the poll loop returns at once, without a store
call, the error `block waiting time out, err: lock is acquired by others`,
which wraps `ErrLockAcquireByOthers`, and a blocking `Lock` whose first
attempt failed with a retryable error returns that error without starting a
watchdog; `IsRetryableErr` of it is `true`, as for an ownership conflict, so
to `IsRetryableErr` the timeout is not a kind of its own. -/
theorem C7_timeout_wraps_sentinel {σ : Type} (c : LockClient σ) (r : RedisLock)
    (others : σ → σ) (ts : List (Tick σ)) (gate : List Bool) (w : World σ) :
    blockingLock c r (⟨others, Select.timeout⟩ :: ts) w
      = some (some timeoutErr, { w with store := others w.store })
    ∧ (r.isBlock = true → IsRetryableErr (tryLock c r w).1 = true →
        Lock c r ⟨⟨others, Select.timeout⟩ :: ts, gate⟩ w
          = some (some timeoutErr, r,
              { (tryLock c r w).2 with store := others (tryLock c r w).2.store }))
    ∧ timeoutErr
        = Err.Errorf "block waiting time out, err: lock is acquired by others"
            Err.ErrLockAcquireByOthers
    ∧ IsRetryableErr (some timeoutErr) = true
    ∧ IsRetryableErr (some timeoutErr) = IsRetryableErr (some (replyErr 0)) := by
  refine ⟨rfl, fun hb hr => ?_, by decide, by decide, by decide⟩
  unfold Lock
  cases h1 : (tryLock c r w).1 with
  | none => rw [h1] at hr; exact Bool.noConfusion hr
  | some e =>
    rw [h1] at hr
    simp only [h1, hb, hr, Bool.not_true, Bool.false_eq_true, if_false]
    rfl

/-- C7, amended, at the blocking handle `lockBlocking` on a held key: the
first attempt fails with a retryable error, the first tick finds the wait
over, and `Lock` returns the error that wraps `ErrLockAcquireByOthers`. -/
theorem C7_timeout_wraps_sentinel_witness :
    lockBlocking.isBlock = true
    ∧ IsRetryableErr (tryLock memClient lockBlocking worldHeldByLock1).1 = true
    ∧ (Lock memClient lockBlocking ⟨[⟨id, Select.timeout⟩], []⟩ worldHeldByLock1).map
          (fun out => out.1)
        = some (some timeoutErr) := by
  have h := (C7_timeout_wraps_sentinel memClient lockBlocking id [] [] worldHeldByLock1).2.1
    rfl (by decide)
  refine ⟨rfl, by decide, ?_⟩
  rw [h]
  rfl

/-! ## C9: the watchdog tick -/

theorem add64_eq (a b : Int) (hlo : -2 ^ 63 ≤ a + b) (hhi : a + b < 2 ^ 63) :
    add64 a b = a + b := by
  unfold add64 wrap64
  have h : (a + b + 2 ^ 63) % 2 ^ 64 = a + b + 2 ^ 63 :=
    Int.emod_eq_of_lt (by omega) (by omega)
  omega

theorem checkReply_none_iff (lost : Err) (res : Reply × Option Err) :
    checkReply lost res = none ↔ res = (Reply.int64 1, none) := by
  obtain ⟨rep, err⟩ := res
  cases err with
  | some e => simp [checkReply]
  | none =>
    cases rep with
    | int64 n =>
      by_cases hn : n = 1
      · simp [checkReply, hn]
      · simp [checkReply, hn]
    | nil => simp [checkReply]
    | int n => simp [checkReply]
    | str t => simp [checkReply]
    | bytes b => simp [checkReply]

theorem runWatchDog_ticks {σ : Type} (c : LockClient σ) (r : RedisLock) (ts : List Bool) :
    ∀ (n : Nat) (w : World σ),
      (runWatchDog c r (List.replicate n false ++ true :: ts) w).1 = true
      ∧ (runWatchDog c r (List.replicate n false ++ true :: ts) w).2.trace
          = w.trace ++ List.replicate n (expireCall r (add64 r.expireSeconds 5)) := by
  intro n
  induction n with
  | zero => intro w; simp [runWatchDog]
  | succ k ih =>
    intro w
    have hk := ih (DelayExpire c r (add64 r.expireSeconds 5) w).2
    have hstep : runWatchDog c r (false :: (List.replicate k false ++ true :: ts)) w
        = runWatchDog c r (List.replicate k false ++ true :: ts)
            (DelayExpire c r (add64 r.expireSeconds 5) w).2 := rfl
    rw [List.replicate_succ, List.cons_append, hstep]
    refine ⟨hk.1, ?_⟩
    rw [hk.2]
    simp [DelayExpire, expireCall, RedisLock.getLockKey, List.replicate_succ]

/-- C9: a tick of the watchdog at which `ctx.Done()` is not ready runs
`DelayExpire(expireSeconds + 5)` (Go's `int64` sum, the plain sum whenever
that fits) and goes on; so `n` such ticks put exactly `n` such calls on the
trace. `DelayExpire` evaluates the check-and-extend script with key count 1
and arguments `[RedisLockKeyPrefix + key, token, expireSeconds]`, and it
returns nil exactly when the store replies the `int64` 1 with no error. -/
theorem C9_watchdog_tick_extends_by_lease_plus_five {σ : Type} (c : LockClient σ)
    (r : RedisLock) (ts : List Bool) (w : World σ) (ttl : Int) :
    runWatchDog c r (false :: ts) w
      = runWatchDog c r ts (DelayExpire c r (add64 r.expireSeconds 5) w).2
    ∧ (∀ n : Nat,
        (runWatchDog c r (List.replicate n false ++ true :: ts) w).2.trace
          = w.trace ++ List.replicate n
              (Event.Eval LuaCheckAndExpireDistributionLock 1
                [Arg.str (RedisLockKeyPrefix ++ r.key), Arg.str r.token,
                  Arg.int64 (add64 r.expireSeconds 5)]))
    ∧ (-2 ^ 63 ≤ r.expireSeconds + 5 → r.expireSeconds + 5 < 2 ^ 63 →
        add64 r.expireSeconds 5 = r.expireSeconds + 5)
    ∧ (DelayExpire c r ttl w).2.trace
        = w.trace ++ [Event.Eval LuaCheckAndExpireDistributionLock 1
            [Arg.str (RedisLockKeyPrefix ++ r.key), Arg.str r.token, Arg.int64 ttl]]
    ∧ (DelayExpire c r ttl w).2.store
        = (c.Eval w.store LuaCheckAndExpireDistributionLock 1
            [Arg.str (RedisLockKeyPrefix ++ r.key), Arg.str r.token, Arg.int64 ttl]).2
    ∧ ((DelayExpire c r ttl w).1 = none ↔
        (c.Eval w.store LuaCheckAndExpireDistributionLock 1
            [Arg.str (RedisLockKeyPrefix ++ r.key), Arg.str r.token, Arg.int64 ttl]).1
          = (Reply.int64 1, none)) := by
  refine ⟨rfl, fun n => (runWatchDog_ticks c r ts n w).2, add64_eq _ _, rfl, rfl, ?_⟩
  exact checkReply_none_iff _ _

/-- C9 at the handle `lockWithDog` over the in-memory store: the lease is 30,
the tick extends to 35. -/
theorem C9_watchdog_tick_extends_by_lease_plus_five_witness :
    add64 lockWithDog.expireSeconds 5 = 35
    ∧ (runWatchDog memClient lockWithDog [false, true] worldHeldWithDog).2.store
        = [("REDIS_LOCK_PREFIX_job", ⟨"4242_18", 35⟩)] := by
  have h := C9_watchdog_tick_extends_by_lease_plus_five memClient lockWithDog [true]
    worldHeldWithDog 35
  refine ⟨(h.2.2.1 (by decide) (by decide)).trans (by decide), ?_⟩
  rw [h.1]
  decide

/-! ## C8: the order of cancelling and deleting in `Unlock` -/

/-- C8, as stated, fails: in the effects of `Unlock` on a handle with a
running watchdog the script call comes first and the cancellation second,
so the cancellation is issued after the delete has run. -/
theorem C8_counterexample_cancel_after_delete :
    (Unlock memClient lockWithDog worldHeldWithDog).2.trace
      = [deleteCall lockWithDog, Event.cancel 0]
    ∧ (Unlock memClient lockWithDog worldHeldWithDog).2.store = []
    ∧ List.indexOf (deleteCall lockWithDog)
          (Unlock memClient lockWithDog worldHeldWithDog).2.trace
        < List.indexOf (Event.cancel 0)
          (Unlock memClient lockWithDog worldHeldWithDog).2.trace := by
  refine ⟨by decide, by decide, by decide⟩

/-- C8, amended: for every handle with `stopDog` set and every outcome of
the store call, `Unlock` issues the cancellation of the watchdog exactly
once, as a deferred call: in the effects of one `Unlock` the check-and-delete
script is run on the store first and the cancellation is issued after that
call has returned, as the last effect. -/
theorem C8_unlock_cancels_after_script {σ : Type} (c : LockClient σ) (r : RedisLock)
    (w : World σ) (id : Nat) (hdog : r.stopDog = some id) :
    (Unlock c r w).2.trace
      = w.trace ++ [Event.Eval LuaCheckAndDeleteDistuributionLock 1
          [Arg.str (RedisLockKeyPrefix ++ r.key), Arg.str r.token], Event.cancel id]
    ∧ (Unlock c r w).2.store
        = (c.Eval w.store LuaCheckAndDeleteDistuributionLock 1
            [Arg.str (RedisLockKeyPrefix ++ r.key), Arg.str r.token]).2 := by
  simp [Unlock, hdog, RedisLock.getLockKey]

/-- C8, amended, at the handle `lockWithDog`. -/
theorem C8_unlock_cancels_after_script_witness :
    lockWithDog.stopDog = some 0
    ∧ (Unlock memClient lockWithDog worldHeldWithDog).2.trace
      = worldHeldWithDog.trace ++ [Event.Eval LuaCheckAndDeleteDistuributionLock 1
          [Arg.str (RedisLockKeyPrefix ++ lockWithDog.key), Arg.str lockWithDog.token],
          Event.cancel 0] :=
  ⟨rfl, (C8_unlock_cancels_after_script memClient lockWithDog worldHeldWithDog 0 rfl).1⟩

/-! ## C10: a start signal while a watchdog is running -/

theorem spinCAS_stuck (flag : Int) (hf : flag ≠ 0) :
    ∀ n : Nat, spinCAS flag (List.replicate n false) = false := by
  intro n
  induction n with
  | zero => simp [spinCAS, hf]
  | succ k ih => simp [List.replicate_succ, spinCAS, hf, ih]

theorem spinCAS_released (flag : Int) (rest : List Bool) :
    ∀ n : Nat, spinCAS flag (List.replicate n false ++ true :: rest) = true := by
  intro n
  induction n with
  | zero => simp [spinCAS]
  | succ k ih =>
    by_cases hf : flag = 0
    · simp [List.replicate_succ, spinCAS, hf]
    · simp only [List.replicate_succ, List.cons_append, spinCAS]
      simp [hf, ih]

/-- C10, as stated, fails: on a watchdog-enabled handle with `runningDog = 1`
the start signal does not return while nothing resets the flag, and once the
previous watchdog goroutine has reset it the signal starts a new watchdog
task and replaces `stopDog`; in neither case is it a no-op. -/
theorem C10_counterexample_start_signal_not_noop :
    lockWithDog.watchDogMode = true ∧ lockWithDog.runningDog = 1
    ∧ watchDog lockWithDog [] worldHeldWithDog = none
    ∧ watchDog lockWithDog [false, false, false] worldHeldWithDog = none
    ∧ (watchDog lockWithDog [false, true] worldHeldWithDog).map
          (fun p => (p.1.runningDog, p.1.stopDog, p.2.trace))
        = some (1, some 1, [Event.goWatchDog 1])
    ∧ lockWithDog.stopDog = some 0 := by
  refine ⟨rfl, rfl, ?_, ?_, ?_, rfl⟩
  · have h : spinCAS 1 [] = false := by decide
    simp [watchDog, h, lockWithDog]
  · have h : spinCAS 1 [false, false, false] = false := by decide
    simp [watchDog, h, lockWithDog]
  · have h : spinCAS 1 [false, true] = true := by decide
    simp [watchDog, h, lockWithDog, worldHeldWithDog]

/-- C10, amended: for a handle with `watchDogMode = false` the start signal
always returns and leaves the handle and the world unchanged. For a
watchdog-enabled handle whose `runningDog` is already 1 the signal does not
return as long as nothing resets the flag (it spins on the compare-and-swap);
once the goroutine of the previous watchdog has reset the flag to 0, the
signal sets `runningDog` to 1 again, puts a new cancel function into
`stopDog` and starts one new watchdog task. -/
theorem C10_start_signal_waits_then_restarts {σ : Type} (r : RedisLock) (gate : List Bool)
    (w : World σ) :
    (r.watchDogMode = false → watchDog r gate w = some (r, w))
    ∧ (r.watchDogMode = true → r.runningDog = 1 →
        ∀ n : Nat, watchDog r (List.replicate n false) w = none)
    ∧ (r.watchDogMode = true → r.runningDog = 1 →
        ∀ n : Nat, watchDog r (List.replicate n false ++ true :: gate) w
          = some ({ r with runningDog := 1, stopDog := some w.nextCancel },
              { w with trace := w.trace ++ [Event.goWatchDog w.nextCancel],
                       nextCancel := w.nextCancel + 1 })) := by
  refine ⟨fun hm => by simp [watchDog, hm], fun hm hr n => ?_, fun hm hr n => ?_⟩
  · have hs := spinCAS_stuck r.runningDog (by rw [hr]; decide) n
    simp [watchDog, hm, hs]
  · have hs := spinCAS_released r.runningDog gate n
    simp [watchDog, hm, hs]

/-- C10, amended, at the handle `lockWithDog`, whose watchdog is running. -/
theorem C10_start_signal_waits_then_restarts_witness :
    lockWithDog.watchDogMode = true ∧ lockWithDog.runningDog = 1
    ∧ (∀ n : Nat, watchDog lockWithDog (List.replicate n false) worldHeldWithDog = none)
    ∧ (lockZeroLease.watchDogMode = true ∧ lock1.watchDogMode = false
        ∧ watchDog lock1 [] worldHeldByLock1 = some (lock1, worldHeldByLock1)) :=
  ⟨rfl, rfl,
    (C10_start_signal_waits_then_restarts lockWithDog [] worldHeldWithDog).2.1 rfl rfl,
    rfl, rfl,
    (C10_start_signal_waits_then_restarts lock1 [] worldHeldByLock1).1 rfl⟩

/-! ## The in-memory store -/

theorem lookup_del (k : String) : ∀ s : MemStore, List.lookup k (MemStore.del s k) = none := by
  intro s
  induction s with
  | nil => rfl
  | cons p rest ih =>
    unfold MemStore.del at ih ⊢
    by_cases hk : p.1 = k
    · rw [List.filter_cons]
      simp only [ne_eq, hk, not_true_eq_false, decide_False, Bool.false_eq_true, if_false]
      exact ih
    · have hk2 : (k == p.1) = false := by
        simp only [beq_eq_false_iff_ne, ne_eq]
        exact fun h => hk h.symm
      obtain ⟨a, b⟩ := p
      simp only [List.filter_cons, ne_eq, hk, not_false_eq_true, decide_True, if_true]
      simp only [List.lookup, hk2]
      exact ih

theorem get_del (s : MemStore) (k : String) : (s.del k).get k = none := by
  simp [MemStore.get, lookup_del]

theorem get_set (s : MemStore) (k : String) (e : Entry) : (s.set k e).get k = some e.value := by
  simp [MemStore.get, MemStore.set, List.lookup]

/-- The client call of `Unlock` on the in-memory store. -/
theorem memEval_delete (s : MemStore) (k t : String) :
    memClient.Eval s LuaCheckAndDeleteDistuributionLock 1 [Arg.str k, Arg.str t]
      = (((luaCheckAndDelete s k t).1, none), (luaCheckAndDelete s k t).2) := by
  simp [memClient, memEval]

theorem Unlock_err {σ : Type} (c : LockClient σ) (r : RedisLock) (w : World σ) :
    (Unlock c r w).1 = checkReply unlockErr
        (c.Eval w.store LuaCheckAndDeleteDistuributionLock 1
          [Arg.str (RedisLockKeyPrefix ++ r.key), Arg.str r.token]).1
    ∧ (Unlock c r w).2.store
        = (c.Eval w.store LuaCheckAndDeleteDistuributionLock 1
          [Arg.str (RedisLockKeyPrefix ++ r.key), Arg.str r.token]).2 := by
  unfold Unlock
  cases r.stopDog <;> exact ⟨rfl, rfl⟩

/-- `Unlock` on the in-memory store by a handle that does not own the key. -/
theorem Unlock_mem_not_owner (r : RedisLock) (w : World MemStore)
    (h : w.store.get (RedisLockKeyPrefix ++ r.key) ≠ some r.token) :
    (Unlock memClient r w).1 = some unlockErr ∧ (Unlock memClient r w).2.store = w.store := by
  have hu := Unlock_err memClient r w
  rw [memEval_delete] at hu
  rw [hu.1, hu.2]
  simp [luaCheckAndDelete, h, checkReply]

/-- `Unlock` on the in-memory store by the handle that owns the key. -/
theorem Unlock_mem_owner (r : RedisLock) (w : World MemStore)
    (h : w.store.get (RedisLockKeyPrefix ++ r.key) = some r.token) :
    (Unlock memClient r w).1 = none
    ∧ (Unlock memClient r w).2.store = w.store.del (RedisLockKeyPrefix ++ r.key) := by
  have hu := Unlock_err memClient r w
  rw [memEval_delete] at hu
  rw [hu.1, hu.2]
  simp [luaCheckAndDelete, h, checkReply]

/-! ## C3: release by a handle that is not the owner -/

/-- C3: over the in-memory store, when the value under
`RedisLockKeyPrefix + key` is absent or differs from the token of the
handle, `Unlock` returns the error `can not unlock lock without ownership of
lock` and the store is unchanged; and over any client, `Unlock` returns an
error whenever the reply of the script is anything but the `int64` 1. -/
theorem C3_unlock_without_ownership_fails (r : RedisLock) (w : World MemStore)
    (hnot : w.store.get (RedisLockKeyPrefix ++ r.key) ≠ some r.token) :
    ((Unlock memClient r w).1 = some unlockErr
      ∧ (Unlock memClient r w).2.store = w.store)
    ∧ (∀ (σ : Type) (c : LockClient σ) (w1 : World σ),
        (c.Eval w1.store LuaCheckAndDeleteDistuributionLock 1
            [Arg.str (RedisLockKeyPrefix ++ r.key), Arg.str r.token]).1.1 ≠ Reply.int64 1 →
        (Unlock c r w1).1 ≠ none) := by
  refine ⟨Unlock_mem_not_owner r w hnot, fun σ c w1 hrep hnone => ?_⟩
  rw [(Unlock_err c r w1).1, checkReply_none_iff] at hnone
  exact hrep (by rw [hnone])

/-- C3 at `lock1` over a store in which its key is held by the handle of
another goroutine: the error is returned and the other owner keeps the key. -/
theorem C3_unlock_without_ownership_fails_witness :
    worldHeldByWorker.store.get (RedisLockKeyPrefix ++ lock1.key) ≠ some lock1.token
    ∧ (Unlock memClient lock1 worldHeldByWorker).1 = some unlockErr
    ∧ (Unlock memClient lock1 worldHeldByWorker).2.store
        = [("REDIS_LOCK_PREFIX_test_nonblock_key", ⟨"4242_19", 2⟩)] :=
  ⟨by decide,
    (C3_unlock_without_ownership_fails lock1 worldHeldByWorker (by decide)).1.1,
    (C3_unlock_without_ownership_fails lock1 worldHeldByWorker (by decide)).1.2⟩

/-! ## C6: a second release -/

/-- C6: over the in-memory store, after an `Unlock` that returned nil, an
`Unlock` of the same handle on the store as the first one left it returns
the error `can not unlock lock without ownership of lock` and leaves the
store unchanged; the key is absent before and after it. -/
theorem C6_second_unlock_fails (r : RedisLock) (w : World MemStore)
    (hfirst : (Unlock memClient r w).1 = none) :
    (Unlock memClient r (Unlock memClient r w).2).1 = some unlockErr
    ∧ (Unlock memClient r (Unlock memClient r w).2).2.store = (Unlock memClient r w).2.store
    ∧ (Unlock memClient r w).2.store.get (RedisLockKeyPrefix ++ r.key) = none := by
  have hown : w.store.get (RedisLockKeyPrefix ++ r.key) = some r.token := by
    by_contra hne
    have hf := (Unlock_mem_not_owner r w hne).1
    rw [hfirst] at hf
    exact Option.noConfusion hf
  have hgone : (Unlock memClient r w).2.store.get (RedisLockKeyPrefix ++ r.key) = none := by
    rw [(Unlock_mem_owner r w hown).2]
    exact get_del _ _
  have hsecond := Unlock_mem_not_owner r (Unlock memClient r w).2 (by rw [hgone]; simp)
  exact ⟨hsecond.1, hsecond.2, hgone⟩

/-- C6 at `lock1` holding its key: the first `Unlock` returns nil, the
second the ownership error. -/
theorem C6_second_unlock_fails_witness :
    (Unlock memClient lock1 worldHeldByLock1).1 = none
    ∧ (Unlock memClient lock1 (Unlock memClient lock1 worldHeldByLock1).2).1
        = some unlockErr :=
  ⟨by decide, (C6_second_unlock_fails lock1 worldHeldByLock1 (by decide)).1⟩

/-! ## C1: the single attempt of `Lock` -/

theorem spinCAS_zero (gate : List Bool) : spinCAS 0 gate = true := by
  cases gate with
  | nil => rfl
  | cons b rest => cases b <;> simp [spinCAS]

/-- The start signal touches neither the store nor the store calls of the
trace. -/
theorem watchDog_frame {σ : Type} (r : RedisLock) (gate : List Bool) (w : World σ)
    (p : RedisLock × World σ) (h : watchDog r gate w = some p) :
    p.2.store = w.store
    ∧ p.2.trace.filter Event.isStoreCall = w.trace.filter Event.isStoreCall := by
  unfold watchDog at h
  by_cases hm : r.watchDogMode = true
  · by_cases hs : spinCAS r.runningDog gate = true
    · simp only [hm, hs, Bool.not_true, Bool.false_eq_true, if_false, if_true,
        Option.some.injEq] at h
      subst h
      simp [Event.isStoreCall]
    · simp [hm, hs] at h
  · simp only [hm, Bool.not_eq_true] at h
    simp only [Bool.not_eq_true] at hm
    simp only [hm, Bool.not_false, if_true, Option.some.injEq] at h
    subst h
    exact ⟨rfl, rfl⟩

/-- The start signal returns when no watchdog is running or none is wanted. -/
theorem watchDog_returns {σ : Type} (r : RedisLock) (gate : List Bool) (w : World σ)
    (h : r.runningDog = 0 ∨ r.watchDogMode = false) : (watchDog r gate w).isSome = true := by
  unfold watchDog
  by_cases hm : r.watchDogMode = true
  · rcases h with h0 | hf
    · simp [hm, h0, spinCAS_zero]
    · rw [hm] at hf; exact Bool.noConfusion hf
  · simp only [Bool.not_eq_true] at hm
    simp [hm]

/-- The deferred function of `Lock` keeps the store and the store calls. -/
theorem lockDefer_frame {σ : Type} (r : RedisLock) (gate : List Bool) (err : Option Err)
    (w : World σ) (out : Option Err × RedisLock × World σ)
    (h : lockDefer r gate err w = some out) :
    out.1 = err ∧ out.2.2.store = w.store
    ∧ out.2.2.trace.filter Event.isStoreCall = w.trace.filter Event.isStoreCall := by
  unfold lockDefer at h
  cases err with
  | some e =>
    simp only [Option.some.injEq] at h
    subst h
    exact ⟨rfl, rfl, rfl⟩
  | none =>
    simp only at h
    cases hw : watchDog r gate w with
    | none => simp [hw] at h
    | some p =>
      simp only [hw, Option.map_some', Option.some.injEq] at h
      subst h
      have hf := watchDog_frame r gate w p hw
      exact ⟨rfl, hf.1, hf.2⟩

theorem spinCAS_iff : ∀ (gate : List Bool) (flag : Int),
    spinCAS flag gate = true ↔ flag = 0 ∨ true ∈ gate := by
  intro gate
  induction gate with
  | nil => intro flag; simp [spinCAS]
  | cons b rest ih =>
    intro flag
    cases b with
    | true => simp [spinCAS]
    | false =>
      by_cases hf : flag = 0
      · simp [spinCAS, hf]
      · have hr := ih flag
        simp only [spinCAS, Bool.false_eq_true, if_false, beq_iff_eq, hf, List.mem_cons,
          false_or]
        rw [hr]
        simp [hf]

/-- When the start signal returns. -/
theorem watchDog_isSome_iff {σ : Type} (r : RedisLock) (gate : List Bool) (w : World σ) :
    (watchDog r gate w).isSome = true
      ↔ r.watchDogMode = false ∨ r.runningDog = 0 ∨ true ∈ gate := by
  unfold watchDog
  by_cases hm : r.watchDogMode = true
  · by_cases hs : spinCAS r.runningDog gate = true
    · have hi := (spinCAS_iff gate r.runningDog).1 hs
      simp only [hm, hs, Bool.not_true, Bool.false_eq_true, if_false, if_true,
        Option.isSome_some, true_iff]
      exact Or.inr hi
    · have hi : ¬ (r.runningDog = 0 ∨ true ∈ gate) :=
        fun h => hs ((spinCAS_iff gate r.runningDog).2 h)
      simp only [hm, hs, Bool.not_true, Bool.false_eq_true, if_false, Option.isSome_none,
        false_iff]
      rintro (h | h)
      · exact Bool.noConfusion h
      · exact hi h
  · simp only [Bool.not_eq_true] at hm
    simp [hm]

/-- C1, as stated, fails in two ways. A store call that fails with
`ErrLockAcquireByOthers` makes the non-blocking handle `lock1` return the
error of the store unchanged, and that error is retryable. And on the handle
`lockWithDog`, non-blocking with its watchdog still running, the store
answers the one attempt on a free key with 1 and no error, and `Lock` does
not return nil: it does not return while `runningDog` stays 1. -/
theorem C1_counterexample_retryable_store_error_and_spin :
    lock1.isBlock = false
    ∧ (busyClient.SetNXEX () (RedisLockKeyPrefix ++ lock1.key) lock1.token
          lock1.expireSeconds).1 = (0, some Err.ErrLockAcquireByOthers)
    ∧ (Lock busyClient lock1 (noSched Unit) ⟨(), [], 0⟩).map (fun out => out.1)
        = some (some Err.ErrLockAcquireByOthers)
    ∧ IsRetryableErr (some Err.ErrLockAcquireByOthers) = true
    ∧ lockWithDog.isBlock = false
    ∧ (memClient.SetNXEX memWorld0.store (RedisLockKeyPrefix ++ lockWithDog.key)
          lockWithDog.token lockWithDog.expireSeconds).1 = (1, none)
    ∧ Lock memClient lockWithDog (noSched MemStore) memWorld0 = none
    ∧ Lock memClient lockWithDog ⟨[], [false, false, false]⟩ memWorld0 = none := by
  refine ⟨rfl, rfl, by decide, rfl, rfl, by decide, by decide, by decide⟩

/-- C1, amended: when the handle is non-blocking, or the first attempt
succeeds, or it fails with an error that is not retryable, `Lock` makes
exactly one store call, `SetNXEX(RedisLockKeyPrefix + key, token,
expireSeconds)`, and its outcome is that of the attempt. For a reply other
than 1 without error it returns the retryable error that wraps
`ErrLockAcquireByOthers`. When the store call fails it returns the error of
the store unchanged; that error is not retryable on a blocking handle and
whenever it is a foreign error value, and it is retryable when the store
hands over the sentinel or a wrapper of it. For the reply 1 without error it
returns nil after the start signal of the watchdog, which makes no store
call; so `Lock` returns exactly when the attempt failed, or the handle has
no watchdog mode, or `runningDog` is 0, or the goroutine of the previous
watchdog resets `runningDog`, and otherwise it does not return. -/
theorem C1_lock_single_attempt {σ : Type} (c : LockClient σ) (r : RedisLock)
    (env : Sched σ) (w : World σ)
    (hyp : r.isBlock = false ∨ (tryLock c r w).1 = none
      ∨ IsRetryableErr (tryLock c r w).1 = false) :
    let res := c.SetNXEX w.store (RedisLockKeyPrefix ++ r.key) r.token r.expireSeconds
    let w1 : World σ :=
      { w with store := res.2,
               trace := w.trace
                 ++ [Event.SetNXEX (RedisLockKeyPrefix ++ r.key) r.token r.expireSeconds] }
    (res.1.2 = none → res.1.1 = 1 →
        Lock c r env w = (watchDog r env.gate w1).map (fun p => (none, p.1, p.2)))
    ∧ (res.1.2 = none → res.1.1 ≠ 1 →
        Lock c r env w = some (some (replyErr res.1.1), r, w1)
        ∧ IsRetryableErr (some (replyErr res.1.1)) = true
        ∧ ∃ text, replyErr res.1.1 = Err.Errorf text Err.ErrLockAcquireByOthers)
    ∧ (∀ e, res.1.2 = some e →
        Lock c r env w = some (some e, r, w1)
        ∧ (r.isBlock = true → IsRetryableErr (some e) = false)
        ∧ (∀ x, e = Err.ext x → IsRetryableErr (some e) = false)
        ∧ (e = Err.ErrLockAcquireByOthers → IsRetryableErr (some e) = true))
    ∧ (∀ out, Lock c r env w = some out →
        out.1 = (tryLock c r w).1
        ∧ out.2.2.store = res.2
        ∧ out.2.2.trace.filter Event.isStoreCall
            = w.trace.filter Event.isStoreCall
              ++ [Event.SetNXEX (RedisLockKeyPrefix ++ r.key) r.token r.expireSeconds])
    ∧ ((Lock c r env w).isSome = true ↔
        ((tryLock c r w).1 ≠ none ∨ r.watchDogMode = false ∨ r.runningDog = 0
          ∨ true ∈ env.gate)) := by
  intro res w1
  have htry2 : (tryLock c r w).2 = w1 := by
    simp only [tryLock, RedisLock.getLockKey]
    split
    · rfl
    · split <;> rfl
  have htry1 : (tryLock c r w).1 =
      (match res.1.2 with
        | some e => some e
        | none => if res.1.1 ≠ 1 then some (replyErr res.1.1) else none) := by
    simp only [tryLock, RedisLock.getLockKey]
    split
    · rename_i e he
      have he2 : res.1.2 = some e := he
      simp [he2]
    · rename_i he
      have he2 : res.1.2 = none := he
      simp only [he2]
      split <;> rfl
  -- `Lock` under the hypothesis is one attempt followed by the deferred function
  have hlock : Lock c r env w = lockDefer r env.gate (tryLock c r w).1 w1 := by
    rw [← htry2]
    unfold Lock
    cases h1 : (tryLock c r w).1 with
    | none => simp only [h1]
    | some e =>
      simp only [h1]
      by_cases hb : r.isBlock = true
      · have hnr : IsRetryableErr (some e) = false := by
          rcases hyp with h | h | h
          · rw [hb] at h; exact Bool.noConfusion h
          · rw [h1] at h; exact Option.noConfusion h
          · rw [h1] at h; exact h
        simp [hb, hnr]
      · simp only [Bool.not_eq_true] at hb
        simp [hb]
  refine ⟨fun herr hrep => ?_, fun herr hrep => ?_, fun e herr => ?_, fun out hout => ?_, ?_⟩
  · rw [hlock, htry1, herr]
    simp [hrep, lockDefer]
  · have hif : (if res.1.1 ≠ 1 then some (replyErr res.1.1) else none)
        = some (replyErr res.1.1) := if_pos hrep
    refine ⟨?_, rfl, ⟨_, rfl⟩⟩
    rw [hlock, htry1, herr]
    show lockDefer r env.gate
      (if res.1.1 ≠ 1 then some (replyErr res.1.1) else none) w1 = _
    rw [hif]
    rfl
  · have he1 : (tryLock c r w).1 = some e := by rw [htry1, herr]
    refine ⟨by rw [hlock, he1]; rfl, fun hb => ?_, fun x hx => by rw [hx]; rfl,
      fun hs => by rw [hs]; rfl⟩
    rcases hyp with h | h | h
    · rw [hb] at h; exact Bool.noConfusion h
    · rw [he1] at h; exact Option.noConfusion h
    · rw [he1] at h; exact h
  · rw [hlock] at hout
    have hf := lockDefer_frame r env.gate _ w1 out hout
    refine ⟨hf.1, hf.2.1, ?_⟩
    rw [hf.2.2]
    simp [w1, Event.isStoreCall]
  · rw [hlock]
    unfold lockDefer
    cases h1 : (tryLock c r w).1 with
    | some e => simp
    | none =>
      simp only [Option.isSome_map', ne_eq, not_true_eq_false, false_or]
      exact watchDog_isSome_iff r env.gate w1

/-- C1, amended, at the non-blocking handle `lock1`: over the in-memory store
the call on the empty store returns, and on a store whose key is held the
one attempt is answered with 0 and `Lock` returns the retryable error of
that reply; over a store that fails with the sentinel `Lock` returns the
sentinel, which is retryable. -/
theorem C1_lock_single_attempt_witness :
    lock1.isBlock = false
    ∧ (Lock memClient lock1 (noSched MemStore) memWorld0).isSome = true
    ∧ (memClient.SetNXEX worldHeldByWorker.store (RedisLockKeyPrefix ++ lock1.key)
          lock1.token lock1.expireSeconds).1 = (0, none)
    ∧ (Lock memClient lock1 (noSched MemStore) worldHeldByWorker).map (fun out => out.1)
        = some (some (replyErr 0))
    ∧ IsRetryableErr (some Err.ErrLockAcquireByOthers) = true :=
  ⟨rfl,
    (C1_lock_single_attempt memClient lock1 (noSched MemStore) memWorld0
      (Or.inl rfl)).2.2.2.2.2 (Or.inr (Or.inl rfl)),
    by decide,
    by
      have h := (C1_lock_single_attempt memClient lock1 (noSched MemStore) worldHeldByWorker
        (Or.inl rfl)).2.1 (by decide) (by decide)
      rw [h.1]
      decide,
    ((C1_lock_single_attempt busyClient lock1 (noSched Unit) ⟨(), [], 0⟩
      (Or.inl rfl)).2.2.1 Err.ErrLockAcquireByOthers rfl).2.2.2 rfl⟩

/-! ## C2: one holder at a time -/

theorem lockKey_ne_empty (key : String) : RedisLockKeyPrefix ++ key ≠ "" := by
  intro h
  have hl : (RedisLockKeyPrefix ++ key).length = ("" : String).length := by rw [h]
  simp only [String.length_append] at hl
  have h1 : RedisLockKeyPrefix.length = 18 := by decide
  have h0 : ("" : String).length = 0 := rfl
  omega

theorem repairLock_pos (c : LockOptions) : 0 < (repairLock c).expireSeconds := by
  have h := repairLock_lease c
  by_cases hp : 0 < c.expireSeconds
  · rw [(h.1 hp).1]; exact hp
  · rw [(h.2 (by omega)).1]; decide

/-- An attempt on the in-memory store that returns nil has created the key
with the token of the handle. -/
theorem tryLock_mem_success (r : RedisLock) (w : World MemStore)
    (h : (tryLock memClient r w).1 = none) :
    (tryLock memClient r w).2.store.get (RedisLockKeyPrefix ++ r.key) = some r.token := by
  simp only [tryLock, memClient, memSetNXEX, RedisLock.getLockKey] at h ⊢
  by_cases h1 : RedisLockKeyPrefix ++ r.key = "" ∨ r.token = ""
  · simp [h1] at h
  · by_cases h2 : r.expireSeconds ≤ 0
    · simp [h1, h2] at h
    · cases hg : MemStore.get w.store (RedisLockKeyPrefix ++ r.key) with
      | some v => simp [h1, h2, hg, replyErr] at h
      | none =>
        simp only [h1, h2, hg, if_false]
        exact get_set _ _ _

/-- An attempt on the in-memory store whose key is present is answered with
0: it returns the retryable error of that reply and leaves the store. -/
theorem tryLock_mem_held (r : RedisLock) (w : World MemStore) (v : String)
    (htok : r.token ≠ "") (hexp : 0 < r.expireSeconds)
    (hheld : w.store.get (RedisLockKeyPrefix ++ r.key) = some v) :
    tryLock memClient r w
      = (some (replyErr 0),
          { w with trace := w.trace
              ++ [Event.SetNXEX (RedisLockKeyPrefix ++ r.key) r.token r.expireSeconds] })
    ∧ memClient.SetNXEX w.store (RedisLockKeyPrefix ++ r.key) r.token r.expireSeconds
        = ((0, none), w.store) := by
  have hk := lockKey_ne_empty r.key
  have h2 : ¬ r.expireSeconds ≤ 0 := by omega
  have hcall : memClient.SetNXEX w.store (RedisLockKeyPrefix ++ r.key) r.token r.expireSeconds
      = ((0, none), w.store) := by
    simp [memClient, memSetNXEX, hk, htok, h2, hheld]
  refine ⟨?_, hcall⟩
  simp only [tryLock, RedisLock.getLockKey, hcall]
  simp

theorem blockingLock_mem_success (r : RedisLock) :
    ∀ (ticks : List (Tick MemStore)) (w w1 : World MemStore),
      blockingLock memClient r ticks w = some (none, w1) →
      w1.store.get (RedisLockKeyPrefix ++ r.key) = some r.token := by
  intro ticks
  induction ticks with
  | nil => intro w w1 h; simp [blockingLock] at h
  | cons t ts ih =>
    intro w w1 h
    unfold blockingLock at h
    simp only at h
    cases hsel : t.select with
    | ctxDone e => simp [hsel] at h
    | timeout => simp [hsel] at h
    | pass =>
      simp only [hsel] at h
      cases htry : (tryLock memClient r { w with store := t.others w.store }).1 with
      | none =>
        simp only [htry, Option.some.injEq, Prod.mk.injEq, true_and] at h
        rw [← h]
        exact tryLock_mem_success r _ htry
      | some e =>
        simp only [htry] at h
        by_cases hr : IsRetryableErr (some e) = true
        · simp only [hr, Bool.not_true, Bool.false_eq_true, if_false] at h
          exact ih _ _ h
        · simp only [Bool.not_eq_true] at hr
          simp [hr] at h

/-- A `Lock` on the in-memory store that returns nil leaves the key of the
handle in the store with the token of the handle. -/
theorem Lock_mem_success (r r1 : RedisLock) (env : Sched MemStore) (w w1 : World MemStore)
    (h : Lock memClient r env w = some (none, r1, w1)) :
    w1.store.get (RedisLockKeyPrefix ++ r.key) = some r.token := by
  unfold Lock at h
  simp only at h
  cases htry : (tryLock memClient r w).1 with
  | none =>
    simp only [htry] at h
    have hf := lockDefer_frame r env.gate none _ _ h
    have hs : w1.store = (tryLock memClient r w).2.store := hf.2.1
    rw [hs]
    exact tryLock_mem_success r w htry
  | some e =>
    simp only [htry] at h
    by_cases hb : r.isBlock = true
    · by_cases hr : IsRetryableErr (some e) = true
      · simp only [hb, hr, Bool.not_true, Bool.false_eq_true, if_false] at h
        cases hbl : blockingLock memClient r env.ticks (tryLock memClient r w).2 with
        | none => simp [hbl] at h
        | some res =>
          simp only [hbl] at h
          have hf := lockDefer_frame r env.gate res.1 res.2 _ h
          have h1 : res.1 = none := hf.1.symm
          have hs : w1.store = res.2.store := hf.2.1
          rw [hs]
          apply blockingLock_mem_success r env.ticks (tryLock memClient r w).2 res.2
          rw [hbl]
          obtain ⟨a, b⟩ := res
          simp only at h1
          rw [h1]
      · simp only [Bool.not_eq_true] at hr
        simp only [hb, hr, Bool.not_true, Bool.not_false, Bool.false_eq_true, if_false,
          if_true] at h
        have hf := lockDefer_frame r env.gate (some e) _ _ h
        exact Option.noConfusion hf.1
    · simp only [Bool.not_eq_true] at hb
      simp only [hb, Bool.not_false, if_true] at h
      have hf := lockDefer_frame r env.gate (some e) _ _ h
      exact Option.noConfusion hf.1

/-- C2: over the in-memory store, let `A` and `B` be handles built on the
same key, `B` non-blocking. If `Lock` of `A` has returned nil and the entry
of the key is since then untouched (neither released nor expired), the
single attempt of `Lock` of `B` is answered with 0 (the key exists), `Lock`
of `B` returns the retryable error that wraps `ErrLockAcquireByOthers`, the
store is unchanged and the value under the prefixed key is still the token
of `A`: of the two attempts only that of `A` saw the key newly created. -/
theorem C2_second_handle_fails_while_held (key : String) (rtA rtB : Runtime)
    (optsA optsB : List LockOption) (A B A1 : RedisLock)
    (envA envB : Sched MemStore) (w0 w1 w2 : World MemStore)
    (hA : NewRedisLock key rtA optsA = some A)
    (hB : NewRedisLock key rtB optsB = some B)
    (hnb : B.isBlock = false)
    (hlock : Lock memClient A envA w0 = some (none, A1, w1))
    (hkeep : w2.store.get (RedisLockKeyPrefix ++ key)
      = w1.store.get (RedisLockKeyPrefix ++ key)) :
    w1.store.get (RedisLockKeyPrefix ++ key) = some A.token
    ∧ (memClient.SetNXEX w2.store (RedisLockKeyPrefix ++ key) B.token B.expireSeconds).1
        = (0, none)
    ∧ Lock memClient B envB w2
        = some (some (replyErr 0), B,
            { w2 with trace := w2.trace
                ++ [Event.SetNXEX (RedisLockKeyPrefix ++ key) B.token B.expireSeconds] })
    ∧ IsRetryableErr (some (replyErr 0)) = true
    ∧ replyErr 0
        = Err.Errorf "reply: 0, err: lock is acquired by others" Err.ErrLockAcquireByOthers
    ∧ w2.store.get (RedisLockKeyPrefix ++ key) = some A.token := by
  obtain ⟨_, _, _, hkA, _, _, _⟩ := NewRedisLock_some hA
  obtain ⟨g, _, htB, hkB, hoB, _, _⟩ := NewRedisLock_some hB
  have hheld1 : w1.store.get (RedisLockKeyPrefix ++ key) = some A.token := by
    have h := Lock_mem_success A A1 envA w0 w1 hlock
    rw [hkA] at h
    exact h
  have hheld2 : w2.store.get (RedisLockKeyPrefix ++ B.key) = some A.token := by
    rw [hkB, hkeep, hheld1]
  have htok : B.token ≠ "" := by rw [htB]; exact token_ne_empty _ _
  have hexp : 0 < B.expireSeconds := by
    have h := repairLock_pos (applyOpts optsB LockOptions.zero)
    rw [← hoB] at h
    exact h
  have htry := tryLock_mem_held B w2 A.token htok hexp hheld2
  rw [hkB] at htry hheld2
  refine ⟨hheld1, by rw [htry.2], ?_, rfl, by decide, hheld2⟩
  unfold Lock
  simp only [htry.1, hnb, Bool.not_false, if_true, lockDefer]

/-- C2 at the handles of `Test_nonBlockingLock`, the second one built by
another goroutine: `lock1` takes the key on the empty store, the attempt of
the other handle fails and the key keeps the token of `lock1`. -/
theorem C2_second_handle_fails_while_held_witness :
    Lock memClient lock1 (noSched MemStore) memWorld0 = some (none, lock1, worldHeldByLock1)
    ∧ (Lock memClient lockWorker (noSched MemStore) worldHeldByLock1).map (fun out => out.1)
        = some (some (replyErr 0))
    ∧ worldHeldByLock1.store.get (RedisLockKeyPrefix ++ "test_nonblock_key")
        = some lock1.token := by
  have hlock : Lock memClient lock1 (noSched MemStore) memWorld0
      = some (none, lock1, worldHeldByLock1) := by decide
  have h := C2_second_handle_fails_while_held "test_nonblock_key" rtMain rtWorker
    [LockOption.WithExpireSeconds 2] [LockOption.WithExpireSeconds 2] lock1 lockWorker lock1
    (noSched MemStore) (noSched MemStore) memWorld0 worldHeldByLock1 worldHeldByLock1
    (by decide) (by decide) rfl hlock rfl
  refine ⟨hlock, ?_, h.1⟩
  rw [h.2.2.1]
  rfl

end redis_lock
